import Mathlib

/-!
# Verification of the TopHat monitor's change-detection pipeline

Shallow embedding of `tophat_api_monitor.py` and `cleanup_files.py`:
the record data model, the baseline store (`load_baseline`, `save_baseline`,
`identify_new_records`), the paginated fetcher (`fetch_all_records`), the
timestamp-based retention pass (`get_timestamped_files`, `cleanup_old_files`),
the orchestrator (`run`), and the EIN address lookup (`get_address_for_ein`).

Python dict values that matter to the pipeline are either strings, ints or
`None`; we model them with `PyVal` and an `Option` for an absent key.
Files are modelled structurally: a CSV file is its header plus rows of
field strings (the byte-level CSV encoding round-trips field lists), the
output directory is the list of file names in it.
-/

/-- A Python value that can sit in a record field: a string, an int, or `None`.
JSON `null` arrives in Python as `None`. -/
inductive PyVal where
  | vStr (s : String)
  | vInt (n : Int)
  | vNone
deriving DecidableEq, Repr

/-- Python `str(v)`.  `str(None)` is the four-letter string `"None"`. -/
def PyVal.pyStr : PyVal → String
  | .vStr s => s
  | .vInt n => toString n
  | .vNone => "None"

/-- One filing record, a JSON object.  `none` models an absent key; a present
key holds a `PyVal` (possibly `vNone`, Python `None`).  Only the fields the
pipeline reads are modelled; extra fields are dropped by every writer
(`extrasaction='ignore'`). -/
structure Record where
  Id : Option PyVal := none
  DocId : Option PyVal := none
  Employer : Option PyVal := none
  Ein : Option PyVal := none
  PlanName : Option PyVal := none
  DateReceived : Option PyVal := none
  Efile : Option PyVal := none
deriving DecidableEq, Repr

/-- Python `str(record.get('Id', ''))`: an absent key yields `str('') = ""`,
a present key yields `str` of its value (so a present `None` yields `"None"`). -/
def strGet : Option PyVal → String
  | none => ""
  | some v => v.pyStr

/-- The CSV cell `csv.DictWriter` emits for a field: an absent key falls back
to the `restval` `None`, and the csv module writes `None` as the empty
string; other values are written via `str`. -/
def cellOf : Option PyVal → String
  | none => ""
  | some .vNone => ""
  | some (.vStr s) => s
  | some (.vInt n) => toString n

/-- `identify_new_records(current_records, baseline_ids)`
(`tophat_api_monitor.py` lines 271-280): the loop appends a record iff its
string-coerced `Id` is truthy (non-empty) and not in the baseline set. -/
def identify_new_records (current_records : List Record) (baseline_ids : Finset String) : List Record :=
  current_records.foldl
    (fun new_records record =>
      let record_id := strGet record.Id
      if record_id ≠ "" ∧ record_id ∉ baseline_ids then new_records ++ [record]
      else new_records)
    []

/-- The membership predicate of `identify_new_records`, as a Boolean. -/
def isNewRecord (baseline_ids : Finset String) (record : Record) : Bool :=
  decide (strGet record.Id ≠ "" ∧ strGet record.Id ∉ baseline_ids)

theorem identify_foldl_acc (current : List Record) (b : Finset String) (acc : List Record) :
    current.foldl
      (fun new_records record =>
        let record_id := strGet record.Id
        if record_id ≠ "" ∧ record_id ∉ b then new_records ++ [record]
        else new_records)
      acc = acc ++ current.filter (isNewRecord b) := by
  induction current generalizing acc with
  | nil => simp
  | cons r rest ih =>
    simp only [List.foldl_cons, List.filter_cons, isNewRecord, decide_eq_true_eq]
    by_cases h : strGet r.Id ≠ "" ∧ strGet r.Id ∉ b
    · rw [if_pos h, if_pos h, ih]
      simp
    · rw [if_neg h, if_neg h, ih]

/-- C1.  `identify_new_records(R, B)` returns exactly the subsequence of `R`
(i.e. the `List.filter`) consisting of the records whose string-coerced `Id`
is non-empty and not a member of `B`, in the original relative order. -/
theorem identify_new_records_eq_filter (R : List Record) (B : Finset String) :
    identify_new_records R B = R.filter (isNewRecord B) := by
  simpa using identify_foldl_acc R B []

/-! ## Baseline store -/

/-- A CSV file, structurally: its header row and its data rows.  The csv
module's quoting makes the byte encoding of rows of fields lossless, so the
row structure is the faithful abstraction level. -/
structure CsvFile where
  header : List String
  rows : List (List String)
deriving DecidableEq, Repr

/-- What `csv.DictReader` yields for column `name` of a data row: the cell at
the header position of `name`, or `None` (here `none`) when the row is
shorter than the header or the column is absent. -/
def getField (hdr : List String) (row : List String) (name : String) : Option String :=
  (hdr.findIdx? (· = name)).bind fun i => row.get? i

/-- The fixed baseline header written by `save_baseline`. -/
def baselineFieldnames : List String :=
  ["Id", "DocId", "Employer", "Ein", "PlanName", "DateReceived", "Efile"]

/-- The row `csv.DictWriter` (with the baseline fieldnames and
`extrasaction='ignore'`) writes for one record. -/
def baselineRow (r : Record) : List String :=
  [cellOf r.Id, cellOf r.DocId, cellOf r.Employer, cellOf r.Ein,
   cellOf r.PlanName, cellOf r.DateReceived, cellOf r.Efile]

/-- `save_baseline(records)` (`tophat_api_monitor.py` lines 247-266) as a file
transformer: a no-op on an empty record list, otherwise a full rewrite with
the records sorted ascending by string-coerced `Id`.  `sorted` in Python is a
stable sort on the string key, as is `List.mergeSort` with this `le`. -/
def save_baseline (file : Option CsvFile) (records : List Record) : Option CsvFile :=
  if records.isEmpty then file
  else
    let sorted_records := records.mergeSort (fun a b => decide (strGet a.Id ≤ strGet b.Id))
    some ⟨baselineFieldnames, sorted_records.map baselineRow⟩

/-- `load_baseline()` (`tophat_api_monitor.py` lines 223-239): an absent file
yields the empty set; otherwise every data row whose `Id` column is truthy
(present and non-empty) contributes that string to the set. -/
def load_baseline (file : Option CsvFile) : Finset String :=
  match file with
  | none => ∅
  | some f =>
      f.rows.foldl
        (fun baseline_ids row =>
          match getField f.header row "Id" with
          | some id => if id ≠ "" then insert id baseline_ids else baseline_ids
          | none => baseline_ids)
        ∅

/-- C2.  `save_baseline` on an empty record list performs no write: the
baseline file (contents and existence alike) is exactly what it was, for
every prior state. -/
theorem save_baseline_empty_noop (file : Option CsvFile) :
    save_baseline file [] = file := rfl

/-- A record whose `Id` key is present with a non-`None` value of non-empty
string coercion.  For such records the CSV cell and the string coercion
agree; for a present `None` they do not (`str(None) = "None"` but the csv
module writes `None` as an empty cell). -/
def goodId (r : Record) : Bool :=
  match r.Id with
  | none => false
  | some .vNone => false
  | some v => v.pyStr ≠ ""

theorem cellOf_eq_strGet_of_goodId {r : Record} (h : goodId r = true) :
    cellOf r.Id = strGet r.Id ∧ strGet r.Id ≠ "" := by
  match hid : r.Id with
  | some (.vStr s) =>
    unfold goodId at h; rw [hid] at h
    simp only [PyVal.pyStr, decide_eq_true_eq] at h
    exact ⟨rfl, h⟩
  | some (.vInt n) =>
    unfold goodId at h; rw [hid] at h
    simp only [PyVal.pyStr, decide_eq_true_eq] at h
    exact ⟨rfl, h⟩
  | some .vNone => unfold goodId at h; rw [hid] at h; cases h
  | none => unfold goodId at h; rw [hid] at h; cases h

theorem getField_baselineRow (r : Record) :
    getField baselineFieldnames (baselineRow r) "Id" = some (cellOf r.Id) := rfl

theorem load_foldl_baselineRows (l : List Record) (s : Finset String)
    (hl : ∀ r ∈ l, goodId r = true) :
    (l.map baselineRow).foldl
      (fun baseline_ids row =>
        match getField baselineFieldnames row "Id" with
        | some id => if id ≠ "" then insert id baseline_ids else baseline_ids
        | none => baseline_ids)
      s = s ∪ (l.map fun r => strGet r.Id).toFinset := by
  induction l generalizing s with
  | nil => simp
  | cons r rest ih =>
    obtain ⟨hcell, hne⟩ := cellOf_eq_strGet_of_goodId (hl r (by simp))
    have hrest : ∀ x ∈ rest, goodId x = true := fun x hx => hl x (by simp [hx])
    simp only [List.map_cons, List.foldl_cons, getField_baselineRow, hcell, if_pos hne,
      List.toFinset_cons]
    rw [ih _ hrest, Finset.insert_union, Finset.union_insert]

/-- C3 as literally stated is false: a record whose `Id` key is present but
`None` has string coercion `"None"` (non-empty), yet `save_baseline` writes
its `Id` cell as the empty string, so `load_baseline` drops it.  -/
def recNoneId : Record := { Id := some .vNone }

/-- Counterexample to C3 as stated: for `R = [{'Id': None}]` every record's
string-coerced `Id` is the non-empty `"None"`, but saving then loading yields
the empty set, not `{"None"}`. -/
theorem save_load_roundtrip_cex :
    [recNoneId] ≠ [] ∧ (∀ r ∈ [recNoneId], strGet r.Id ≠ "") ∧
    load_baseline (save_baseline none [recNoneId]) ≠
      ([recNoneId].map fun r => strGet r.Id).toFinset := by
  refine ⟨by simp, by decide, ?_⟩
  have hsave : save_baseline none [recNoneId] =
      some ⟨baselineFieldnames, [baselineRow recNoneId]⟩ := by
    unfold save_baseline
    simp
  rw [hsave]
  have hload : load_baseline (some ⟨baselineFieldnames, [baselineRow recNoneId]⟩) =
      (∅ : Finset String) := rfl
  rw [hload]
  simp [recNoneId, strGet, PyVal.pyStr]
  exact fun h => (Finset.singleton_ne_empty "None") h.symm

/-- C3 (amended).  For every non-empty list of records whose `Id` is present,
not `None`, and of non-empty string coercion, `save_baseline` followed by
`load_baseline` returns exactly the set of string-coerced `Id`s. -/
theorem save_load_roundtrip (file : Option CsvFile) (records : List Record)
    (hne : records ≠ [])
    (hids : ∀ r ∈ records, goodId r = true) :
    load_baseline (save_baseline file records) =
      (records.map fun r => strGet r.Id).toFinset := by
  have hsave : save_baseline file records =
      some ⟨baselineFieldnames,
        (records.mergeSort (fun a b => decide (strGet a.Id ≤ strGet b.Id))).map baselineRow⟩ := by
    cases records with
    | nil => exact absurd rfl hne
    | cons a l => rfl
  rw [hsave]
  show ((records.mergeSort _).map baselineRow).foldl _ ∅ = _
  rw [load_foldl_baselineRows _ _ (fun r hr => hids r (List.mem_mergeSort.mp hr))]
  rw [Finset.empty_union]
  exact List.toFinset_eq_of_perm _ _
    ((List.mergeSort_perm records _).map (fun r => strGet r.Id))

def recs1 : List Record := [{ Id := some (.vStr "4") }]

theorem save_load_roundtrip_witness :
    (recs1 ≠ [] ∧ ∀ r ∈ recs1, goodId r = true) ∧
    load_baseline (save_baseline none recs1) =
      (recs1.map fun r => strGet r.Id).toFinset :=
  ⟨⟨by decide, by decide⟩, save_load_roundtrip none recs1 (by decide) (by decide)⟩

/-! ## Paginated fetcher -/

/-- A successful page response: `{total: ..., rows: [...]}`.  `total` models
`data.get('total', 0)`. -/
structure Page where
  total : Nat
  rows : List Record
deriving Repr

/-- The dedup key `fetch_all_records` uses for a row: `row.get('Id')`, which
is `None` (and the row skipped) when the key is absent or its value is
`None`, and the raw value otherwise. -/
def dedupKey (r : Record) : Option PyVal :=
  match r.Id with
  | none => none
  | some .vNone => none
  | some v => some v

/-- The inner `for row in rows` loop of `fetch_all_records`
(`tophat_api_monitor.py` lines 780-794): skip rows without an identifier,
skip rows whose identifier was already seen, append the rest and remember
their identifiers. -/
def processRows : List Record → List Record → List PyVal → List Record × List PyVal
  | [], all_records, seen_ids => (all_records, seen_ids)
  | row :: rest, all_records, seen_ids =>
    match dedupKey row with
    | none => processRows rest all_records seen_ids
    | some record_id =>
        if record_id ∈ seen_ids then processRows rest all_records seen_ids
        else processRows rest (all_records ++ [row]) (record_id :: seen_ids)

/-- The outcome of a fetch, instrumented with the raw rows of every page the
loop processed and the trace of page requests: each request records the
offset asked for and the number of accumulated records at the moment the
request was issued. -/
structure FetchResult where
  records : List Record
  processed : List Record
  requests : List (Nat × Nat)
deriving Repr

/-- The `while True` pagination loop of `fetch_all_records`
(`tophat_api_monitor.py` lines 756-814), with the HTTP server abstracted as
a function from offset to `Option Page` (`none` = request/parse failure) and
structural fuel standing in for the unbounded loop (the Python loop need not
terminate against an adversarial server).  `RECORDS_PER_PAGE = 100`. -/
def fetchLoop (server : Nat → Option Page) :
    Nat → List Record → List Record → List (Nat × Nat) → List PyVal →
    Nat → Option Nat → Option Nat → FetchResult
  | 0, all_records, processed, requests, _, _, _, _ =>
      ⟨all_records, processed, requests⟩
  | fuel + 1, all_records, processed, requests, seen_ids, offset, total?, max? =>
      let requests := requests ++ [(offset, all_records.length)]
      match server offset with
      | none => ⟨all_records, processed, requests⟩
      | some data =>
          let total_records := total?.getD data.total
          if data.rows.isEmpty then ⟨all_records, processed, requests⟩
          else
            let step := processRows data.rows all_records seen_ids
            let all_records := step.1
            let seen_ids := step.2
            let processed := processed ++ data.rows
            let offset := offset + 100
            if (match max? with
                | some m => decide (m ≤ all_records.length)
                | none => false) then
              ⟨all_records, processed, requests⟩
            else if total_records ≤ offset then ⟨all_records, processed, requests⟩
            else fetchLoop server fuel all_records processed requests seen_ids
                   offset (some total_records) max?

/-- `fetch_all_records(full_scan)` (`tophat_api_monitor.py` lines 735-816):
`max_records_to_fetch` is `None` on a full scan and `1000` on an
incremental run; everything starts empty at offset 0. -/
def fetch_all_records (server : Nat → Option Page) (fuel : Nat) (full_scan : Bool) :
    FetchResult :=
  fetchLoop server fuel [] [] [] [] 0 none (if full_scan then none else some 1000)

theorem processRows_append (xs ys : List Record) (acc : List Record) (seen : List PyVal) :
    processRows (xs ++ ys) acc seen =
      processRows ys (processRows xs acc seen).1 (processRows xs acc seen).2 := by
  induction xs generalizing acc seen with
  | nil => simp [processRows]
  | cons row rest ih =>
    cases hk : dedupKey row with
    | none => simp only [List.cons_append, processRows, hk]; exact ih acc seen
    | some record_id =>
      simp only [List.cons_append, processRows, hk]
      by_cases h : record_id ∈ seen
      · rw [if_pos h, if_pos h]; exact ih acc seen
      · rw [if_neg h, if_neg h]; exact ih (acc ++ [row]) (record_id :: seen)

theorem processRows_sublist (rows : List Record) (acc : List Record) (seen : List PyVal) :
    ∃ l, (processRows rows acc seen).1 = acc ++ l ∧ l.Sublist rows := by
  induction rows generalizing acc seen with
  | nil => exact ⟨[], by simp [processRows]⟩
  | cons row rest ih =>
    cases hk : dedupKey row with
    | none =>
      simp only [processRows, hk]
      obtain ⟨l, hl, hs⟩ := ih acc seen
      exact ⟨l, hl, hs.cons row⟩
    | some record_id =>
      simp only [processRows, hk]
      by_cases h : record_id ∈ seen
      · rw [if_pos h]
        obtain ⟨l, hl, hs⟩ := ih acc seen
        exact ⟨l, hl, hs.cons row⟩
      · rw [if_neg h]
        obtain ⟨l, hl, hs⟩ := ih (acc ++ [row]) (record_id :: seen)
        exact ⟨row :: l, by simpa using hl, hs.cons₂ row⟩

theorem processRows_nodup (rows : List Record) (acc : List Record) (seen : List PyVal)
    (hnd : (acc.filterMap dedupKey).Nodup)
    (hsub : ∀ k ∈ acc.filterMap dedupKey, k ∈ seen) :
    ((processRows rows acc seen).1.filterMap dedupKey).Nodup ∧
      ∀ k ∈ (processRows rows acc seen).1.filterMap dedupKey,
        k ∈ (processRows rows acc seen).2 := by
  induction rows generalizing acc seen with
  | nil => exact ⟨hnd, hsub⟩
  | cons row rest ih =>
    cases hk : dedupKey row with
    | none => simp only [processRows, hk]; exact ih acc seen hnd hsub
    | some record_id =>
      simp only [processRows, hk]
      by_cases h : record_id ∈ seen
      · rw [if_pos h]; exact ih acc seen hnd hsub
      · rw [if_neg h]
        refine ih (acc ++ [row]) (record_id :: seen) ?_ ?_
        · rw [List.filterMap_append]
          simp only [List.filterMap_cons, hk, List.filterMap_nil]
          refine List.Nodup.append hnd (List.nodup_singleton _) ?_
          intro a ha hb
          simp only [List.mem_singleton] at hb
          exact h (hb ▸ hsub a ha)
        · intro k hkmem
          rw [List.filterMap_append] at hkmem
          simp only [List.filterMap_cons, hk, List.filterMap_nil, List.mem_append,
            List.mem_singleton] at hkmem
          rcases hkmem with hkmem | hkmem
          · exact List.mem_cons_of_mem _ (hsub k hkmem)
          · simp [hkmem]

theorem fetchLoop_records (server : Nat → Option Page) (fuel : Nat) :
    ∀ acc processed reqs seen offset total? max?,
      processRows processed [] [] = (acc, seen) →
      ∃ s, processRows (fetchLoop server fuel acc processed reqs seen offset total? max?).processed [] []
        = ((fetchLoop server fuel acc processed reqs seen offset total? max?).records, s) := by
  induction fuel with
  | zero =>
    intro acc processed reqs seen offset total? max? h
    exact ⟨seen, by simpa [fetchLoop] using h⟩
  | succ fuel ih =>
    intro acc processed reqs seen offset total? max? h
    simp only [fetchLoop]
    cases hs : server offset with
    | none => exact ⟨seen, by simpa using h⟩
    | some data =>
      simp only []
      by_cases hrows : data.rows.isEmpty
      · rw [if_pos hrows]
        exact ⟨seen, by simpa using h⟩
      · rw [if_neg hrows]
        have hstep : processRows (processed ++ data.rows) [] [] =
            processRows data.rows acc seen := by
          rw [processRows_append, h]
        split
        · exact ⟨(processRows data.rows acc seen).2, by rw [hstep]⟩
        · split
          · exact ⟨(processRows data.rows acc seen).2, by rw [hstep]⟩
          · exact ih _ _ _ _ _ _ _ (by rw [hstep])

/-- C4.  In every fetch (any server behaviour, any mode, any fuel), the
returned record list is exactly the first-occurrence deduplication of the
full stream of processed rows: it is a sublist of that stream, its
identifiers are pairwise distinct, and re-running the row-processing loop
over the stream reproduces it (so for a row whose identifier repeats, the
first-seen row is the one kept). -/
theorem fetch_dedup (server : Nat → Option Page) (fuel : Nat) (full_scan : Bool) :
    (fetch_all_records server fuel full_scan).records
      = (processRows (fetch_all_records server fuel full_scan).processed [] []).1
    ∧ ((fetch_all_records server fuel full_scan).records.filterMap dedupKey).Nodup
    ∧ (fetch_all_records server fuel full_scan).records.Sublist
        (fetch_all_records server fuel full_scan).processed := by
  obtain ⟨s, hs⟩ :=
    fetchLoop_records server fuel [] [] [] [] 0 none
      (if full_scan then none else some 1000) (by simp [processRows])
  have hrec : (fetch_all_records server fuel full_scan).records
      = (processRows (fetch_all_records server fuel full_scan).processed [] []).1 := by
    rw [fetch_all_records, hs]
  refine ⟨hrec, ?_, ?_⟩
  · rw [hrec]
    exact (processRows_nodup _ [] [] (by simp) (by simp)).1
  · obtain ⟨l, hl, hsub⟩ :=
      processRows_sublist (fetch_all_records server fuel full_scan).processed [] []
    rw [hrec, hl]
    simpa using hsub

theorem fetchLoop_budget (server : Nat → Option Page) (m : Nat) (fuel : Nat) :
    ∀ acc processed reqs seen offset total?,
      acc.length < m →
      (∀ p ∈ reqs, p.2 < m) →
      ∀ p ∈ (fetchLoop server fuel acc processed reqs seen offset total? (some m)).requests,
        p.2 < m := by
  induction fuel with
  | zero =>
    intro acc processed reqs seen offset total? _ hreqs
    simpa [fetchLoop] using hreqs
  | succ fuel ih =>
    intro acc processed reqs seen offset total? hacc hreqs
    have hreqs' : ∀ p ∈ reqs ++ [(offset, acc.length)], p.2 < m := by
      intro p hp
      rcases List.mem_append.mp hp with hp | hp
      · exact hreqs p hp
      · simp only [List.mem_singleton] at hp
        simpa [hp] using hacc
    simp only [fetchLoop]
    cases hs : server offset with
    | none => simpa using hreqs'
    | some data =>
      simp only []
      by_cases hrows : data.rows.isEmpty
      · rw [if_pos hrows]
        simpa using hreqs'
      · rw [if_neg hrows]
        split
        · simpa using hreqs'
        · next hbudget =>
          have hlt : (processRows data.rows acc seen).1.length < m := by
            simpa using hbudget
          split
          · simpa using hreqs'
          · exact ih _ _ _ _ _ _ hlt hreqs'

/-- C5.  In incremental mode (`full_scan = false`, budget 1000), every page
request in the trace is issued while strictly fewer than 1000 records have
been accumulated: once a page iteration ends with at least 1000 records the
loop breaks and no further request is made. -/
theorem fetch_budget (server : Nat → Option Page) (fuel : Nat) :
    ∀ p ∈ (fetch_all_records server fuel false).requests, p.2 < 1000 := by
  have h := fetchLoop_budget server 1000 fuel [] [] [] [] 0 none (by simp) (by simp)
  simpa [fetch_all_records] using h

theorem fetch_budget_witness :
    (0, 0) ∈ (fetch_all_records (fun _ => none) 1 false).requests ∧
      ((0, 0) : Nat × Nat).2 < 1000 :=
  ⟨by decide, fetch_budget (fun _ => none) 1 (0, 0) (by decide)⟩

/-! ## Timestamp parsing (`datetime.strptime(..., '%Y%m%d_%H%M%S')`)

CPython's `_strptime` compiles the format to a regex and requires the whole
input to be consumed.  The directive patterns are
`%Y = \d\d\d\d`, `%m = 1[0-2]|0[1-9]|[1-9]`, `%d = 3[01]|[12]\d|0[1-9]|[1-9]`,
`%H = 2[0-3]|[0-1]\d|\d`, `%M = [0-5]\d|\d`, `%S = 6[0-1]|[0-5]\d|\d`,
with ordered-alternation backtracking; the first full-pattern match wins and
any unconverted trailing data raises.  The parsers below return the list of
candidate (value, rest) parses in the engine's backtracking order (ASCII
digits; the regexes nominally also match other Unicode decimal digits,
which cannot occur in these machine-written file names). -/

/-- Decimal value of an ASCII digit. -/
def digitVal (c : Char) : Nat := c.toNat - 48

/-- `lo ≤ c ≤ hi` on code points, as the regex character ranges. -/
def charBetween (lo hi c : Char) : Bool := lo.toNat ≤ c.toNat && c.toNat ≤ hi.toNat

/-- `%Y`: exactly four digits. -/
def pYear : List Char → List (Nat × List Char)
  | a :: b :: c :: d :: r =>
      if a.isDigit && b.isDigit && c.isDigit && d.isDigit then
        [(((digitVal a * 10 + digitVal b) * 10 + digitVal c) * 10 + digitVal d, r)]
      else []
  | _ => []

/-- `%m`: `1[0-2]|0[1-9]|[1-9]`, alternatives in regex order. -/
def pMonth (s : List Char) : List (Nat × List Char) :=
  (match s with
   | '1' :: c :: r => if charBetween '0' '2' c then [(10 + digitVal c, r)] else []
   | _ => []) ++
  (match s with
   | '0' :: c :: r => if charBetween '1' '9' c then [(digitVal c, r)] else []
   | _ => []) ++
  (match s with
   | c :: r => if charBetween '1' '9' c then [(digitVal c, r)] else []
   | _ => [])

/-- `%d`: `3[01]|[12]\d|0[1-9]|[1-9]`. -/
def pDay (s : List Char) : List (Nat × List Char) :=
  (match s with
   | '3' :: c :: r => if charBetween '0' '1' c then [(30 + digitVal c, r)] else []
   | _ => []) ++
  (match s with
   | a :: c :: r =>
       if charBetween '1' '2' a && c.isDigit then [(digitVal a * 10 + digitVal c, r)] else []
   | _ => []) ++
  (match s with
   | '0' :: c :: r => if charBetween '1' '9' c then [(digitVal c, r)] else []
   | _ => []) ++
  (match s with
   | c :: r => if charBetween '1' '9' c then [(digitVal c, r)] else []
   | _ => [])

/-- `%H`: `2[0-3]|[0-1]\d|\d`. -/
def pHour (s : List Char) : List (Nat × List Char) :=
  (match s with
   | '2' :: c :: r => if charBetween '0' '3' c then [(20 + digitVal c, r)] else []
   | _ => []) ++
  (match s with
   | a :: c :: r =>
       if charBetween '0' '1' a && c.isDigit then [(digitVal a * 10 + digitVal c, r)] else []
   | _ => []) ++
  (match s with
   | c :: r => if c.isDigit then [(digitVal c, r)] else []
   | _ => [])

/-- `%M`: `[0-5]\d|\d`. -/
def pMinute (s : List Char) : List (Nat × List Char) :=
  (match s with
   | a :: c :: r =>
       if charBetween '0' '5' a && c.isDigit then [(digitVal a * 10 + digitVal c, r)] else []
   | _ => []) ++
  (match s with
   | c :: r => if c.isDigit then [(digitVal c, r)] else []
   | _ => [])

/-- `%S`: `6[0-1]|[0-5]\d|\d` (the regex admits leap seconds 60 and 61;
`datetime` then rejects them). -/
def pSecond (s : List Char) : List (Nat × List Char) :=
  (match s with
   | '6' :: c :: r => if charBetween '0' '1' c then [(60 + digitVal c, r)] else []
   | _ => []) ++
  (match s with
   | a :: c :: r =>
       if charBetween '0' '5' a && c.isDigit then [(digitVal a * 10 + digitVal c, r)] else []
   | _ => []) ++
  (match s with
   | c :: r => if c.isDigit then [(digitVal c, r)] else []
   | _ => [])

/-- All `%Y%m%d` parses of a segment, in backtracking order. -/
def ymdCands (s : List Char) : List ((Nat × Nat × Nat) × List Char) :=
  (pYear s).flatMap fun yc =>
    (pMonth yc.2).flatMap fun mc =>
      (pDay mc.2).map fun dc => ((yc.1, mc.1, dc.1), dc.2)

/-- All `%H%M%S` parses of a segment, in backtracking order. -/
def hmsCands (s : List Char) : List ((Nat × Nat × Nat) × List Char) :=
  (pHour s).flatMap fun hc =>
    (pMinute hc.2).flatMap fun mc =>
      (pSecond mc.2).map fun sc => ((hc.1, mc.1, sc.1), sc.2)

/-- Day count of a Gregorian month, as `datetime` validates it. -/
def daysInMonth (y m : Nat) : Nat :=
  if m = 2 then
    if y % 4 = 0 && (y % 100 ≠ 0 || y % 400 = 0) then 29 else 28
  else if m = 4 || m = 6 || m = 9 || m = 11 then 30 else 31

/-- `datetime.strptime(date_part + "_" + time_part, '%Y%m%d_%H%M%S')` for
segments containing no underscore, returning the timestamp linearised to a
single natural number (the mixed-radix key is injective on valid fields, so
comparing keys is comparing datetimes).  The literal `_` forces the `%Y%m%d`
part to consume the whole date segment, so the engine commits to the first
fully-consuming date parse and to the first time parse; trailing unconverted
data, and field combinations `datetime` rejects (year 0, day beyond the
month's length, leap seconds), raise `ValueError`, i.e. `none`. -/
def strptimeYmdHms (datePart timePart : List Char) : Option Nat :=
  match ((ymdCands datePart).filter (fun c => c.2.isEmpty)).head? with
  | none => none
  | some ((y, m, d), _) =>
      match (hmsCands timePart).head? with
      | none => none
      | some ((h, mi, s), rest) =>
          if rest.isEmpty && 1 ≤ y && d ≤ daysInMonth y m && s ≤ 59 then
            some (((((y * 13 + m) * 32 + d) * 24 + h) * 60 + mi) * 60 + s)
          else none

/-- `pathlib.PurePath.stem`: the file name with its last suffix removed,
where a leading dot or a trailing dot is not a suffix separator. -/
def pathStem (name : List Char) : List Char :=
  match (name.reverse.findIdx? (· = '.')).map (fun j => name.length - 1 - j) with
  | some i => if 0 < i ∧ i < name.length - 1 then name.take i else name
  | none => name

/-- Python `str.split('_')`: split on every underscore, keeping empty
pieces (`''.split('_') == ['']`). -/
def splitUnderscore : List Char → List (List Char)
  | [] => [[]]
  | c :: r =>
      let rest := splitUnderscore r
      if c = '_' then [] :: rest
      else
        match rest with
        | h :: t => (c :: h) :: t
        | [] => [[c]]

/-- The timestamp a cleanup pass extracts from one file name
(`cleanup_files.py` lines 54-66 and `tophat_api_monitor.py` lines 307-318):
take the stem, split on `_`, require at least 3 parts, and `strptime` the
last two as `%Y%m%d_%H%M%S`; any failure excludes the file. -/
def parseStamp (name : String) : Option Nat :=
  let parts := splitUnderscore (pathStem name.data)
  match parts.reverse with
  | time_part :: date_part :: _ =>
      if 3 ≤ parts.length then strptimeYmdHms date_part time_part else none
  | _ => none

/-! ## Timestamp-based retention (`cleanup_files.py`, class `FileCleanup`) -/

/-- `FileCleanup.get_timestamped_files(pattern)` (`cleanup_files.py` lines
38-71), with the glob result passed in as the list of matching file names:
keep the names whose timestamp parses, sorted newest first
(`sort(key=..., reverse=True)` is stable, as is `mergeSort` with this `le`). -/
def get_timestamped_files (files : List String) : List (String × Nat) :=
  (files.filterMap fun f => (parseStamp f).map fun t => (f, t)).mergeSort
    (fun a b => decide (b.2 ≤ a.2))

/-- Outcome of one `FileCleanup.cleanup_old_files` pass: the kept entries,
the entries actually removed from the file system, and the returned
`(kept, deleted)` counts. -/
structure CleanupResult where
  kept : List (String × Nat)
  deleted : List (String × Nat)
  counts : Nat × Nat
deriving DecidableEq, Repr

/-- `FileCleanup.cleanup_old_files(pattern, dry_run)` (`cleanup_files.py`
lines 73-116): no matching parsed files returns `(0, 0)`; otherwise the
first `keep_count` of the newest-first list are kept and the rest deleted.
Deletion is modelled error-free, so the live deleted count equals
`len(files_to_delete)` (a per-file `unlink` error would only lower it);
in dry-run mode nothing is removed but the same count is reported. -/
def cleanup_old_files (files : List String) (keep_count : Nat) (dry_run : Bool) :
    CleanupResult :=
  let files_with_timestamps := get_timestamped_files files
  if files_with_timestamps.isEmpty then ⟨[], [], (0, 0)⟩
  else
    let files_to_keep := files_with_timestamps.take keep_count
    let files_to_delete := files_with_timestamps.drop keep_count
    ⟨files_to_keep, if dry_run then [] else files_to_delete,
      (files_to_keep.length, files_to_delete.length)⟩

theorem filterMap_stamp_map_fst (files : List String)
    (hall : ∀ f ∈ files, (parseStamp f).isSome) :
    (files.filterMap fun f => (parseStamp f).map fun t => (f, t)).map Prod.fst = files := by
  induction files with
  | nil => rfl
  | cons f rest ih =>
    obtain ⟨t, ht⟩ := Option.isSome_iff_exists.mp (hall f (by simp))
    simp only [List.filterMap_cons, ht, Option.map_some', List.map_cons]
    rw [ih (fun x hx => hall x (by simp [hx]))]

theorem get_timestamped_files_sorted (files : List String) :
    (get_timestamped_files files).Pairwise (fun a b => decide (b.2 ≤ a.2) = true) := by
  refine List.sorted_mergeSort ?_ ?_ _
  · intro a b c hab hbc
    simp only [decide_eq_true_eq] at *
    omega
  · intro a b
    simp only [Bool.or_eq_true, decide_eq_true_eq]
    exact Nat.le_total b.2 a.2

theorem get_timestamped_files_perm (files : List String)
    (hall : ∀ f ∈ files, (parseStamp f).isSome) :
    ((get_timestamped_files files).map Prod.fst).Perm files := by
  have h := (List.mergeSort_perm
    (files.filterMap fun f => (parseStamp f).map fun t => (f, t))
    (fun a b => decide (b.2 ≤ a.2))).map Prod.fst
  rwa [filterMap_stamp_map_fst files hall] at h

/-- C6.  When every matching file name parses, a live cleanup keeps the
`keep_count` newest files and deletes exactly the remainder (every deleted
file is at least as old as every kept one, and together they are exactly
the input files), while a dry run deletes nothing, keeps the same list and
reports the same `(kept, deleted)` counts as the error-free live run. -/
theorem cleanup_retention (files : List String) (K : Nat)
    (hall : ∀ f ∈ files, (parseStamp f).isSome) :
    (((cleanup_old_files files K false).kept ++
        (cleanup_old_files files K false).deleted).map Prod.fst).Perm files
    ∧ (cleanup_old_files files K false).kept.length = min K files.length
    ∧ (∀ a ∈ (cleanup_old_files files K false).kept,
        ∀ b ∈ (cleanup_old_files files K false).deleted, b.2 ≤ a.2)
    ∧ (cleanup_old_files files K true).deleted = []
    ∧ (cleanup_old_files files K true).counts = (cleanup_old_files files K false).counts
    ∧ (cleanup_old_files files K true).kept = (cleanup_old_files files K false).kept := by
  have hperm := get_timestamped_files_perm files hall
  have hsorted := get_timestamped_files_sorted files
  have hlen : (get_timestamped_files files).length = files.length := by
    simpa using hperm.length_eq
  by_cases hemp : (get_timestamped_files files).isEmpty
  · have hnil : get_timestamped_files files = [] := by simpa using hemp
    have hfiles : files = [] := by
      have h2 := hperm
      rw [hnil] at h2
      exact h2.nil_eq.symm
    have h0 : get_timestamped_files ([] : List String) = [] := by
      simp [get_timestamped_files]
    simp [cleanup_old_files, hfiles, h0]
  · have hres : cleanup_old_files files K false =
        ⟨(get_timestamped_files files).take K, (get_timestamped_files files).drop K,
          (((get_timestamped_files files).take K).length,
           ((get_timestamped_files files).drop K).length)⟩ := by
      unfold cleanup_old_files
      rw [if_neg hemp]
      rfl
    have hresd : cleanup_old_files files K true =
        ⟨(get_timestamped_files files).take K, [],
          (((get_timestamped_files files).take K).length,
           ((get_timestamped_files files).drop K).length)⟩ := by
      unfold cleanup_old_files
      rw [if_neg hemp]
      rfl
    rw [hres, hresd]
    refine ⟨?_, ?_, ?_, rfl, rfl, rfl⟩
    · rw [List.take_append_drop]
      exact hperm
    · rw [List.length_take, hlen]
    · rw [← List.take_append_drop K (get_timestamped_files files)] at hsorted
      have := (List.pairwise_append.mp hsorted).2.2
      intro a ha b hb
      exact of_decide_eq_true (this a ha b hb)

def cleanupFiles0 : List String :=
  ["a_20240104_120000.csv", "b_20240103_120000.csv",
   "c_20240102_120000.csv", "d_20240101_120000.csv"]

theorem cleanup_retention_witness :
    (∀ f ∈ cleanupFiles0, (parseStamp f).isSome) ∧
    ((((cleanup_old_files cleanupFiles0 2 false).kept ++
        (cleanup_old_files cleanupFiles0 2 false).deleted).map Prod.fst).Perm cleanupFiles0
    ∧ (cleanup_old_files cleanupFiles0 2 false).kept.length = min 2 cleanupFiles0.length
    ∧ (∀ a ∈ (cleanup_old_files cleanupFiles0 2 false).kept,
        ∀ b ∈ (cleanup_old_files cleanupFiles0 2 false).deleted, b.2 ≤ a.2)
    ∧ (cleanup_old_files cleanupFiles0 2 true).deleted = []
    ∧ (cleanup_old_files cleanupFiles0 2 true).counts =
        (cleanup_old_files cleanupFiles0 2 false).counts
    ∧ (cleanup_old_files cleanupFiles0 2 true).kept =
        (cleanup_old_files cleanupFiles0 2 false).kept) :=
  ⟨by decide, cleanup_retention cleanupFiles0 2 (by decide)⟩

/-- Strict fixed-width `YYYYMMDD` (the spec's reading): exactly eight ASCII
digits forming a valid calendar date. -/
def strictYmd (s : List Char) : Bool :=
  match s with
  | [a, b, c, d, e, f, g, k] =>
      a.isDigit && b.isDigit && c.isDigit && d.isDigit &&
      e.isDigit && f.isDigit && g.isDigit && k.isDigit &&
      (let y := ((digitVal a * 10 + digitVal b) * 10 + digitVal c) * 10 + digitVal d
       let m := digitVal e * 10 + digitVal f
       let day := digitVal g * 10 + digitVal k
       decide (1 ≤ y) && decide (1 ≤ m) && decide (m ≤ 12) &&
       decide (1 ≤ day) && decide (day ≤ daysInMonth y m))
  | _ => false

/-- Strict fixed-width `HHMMSS` (the spec's reading): exactly six ASCII
digits forming a valid time of day. -/
def strictHms (s : List Char) : Bool :=
  match s with
  | [a, b, c, d, e, f] =>
      a.isDigit && b.isDigit && c.isDigit && d.isDigit && e.isDigit && f.isDigit &&
      (let h := digitVal a * 10 + digitVal b
       let mi := digitVal c * 10 + digitVal d
       let s := digitVal e * 10 + digitVal f
       decide (h ≤ 23) && decide (mi ≤ 59) && decide (s ≤ 59))
  | _ => false

/-- Counterexample to C7 as stated: the stem of `a_2024111_12345.csv` has
three underscore-separated segments whose last two are *not* a strict
`YYYYMMDD`/`HHMMSS` pair, yet CPython's `strptime` parses
`2024111_12345` (as 2024-11-01 12:34:05, via the regex's one- and
two-digit alternatives), so with `keep_count = 0` the live cleanup deletes
the file instead of excluding it. -/
theorem cleanup_strict_cex :
    splitUnderscore (pathStem "a_2024111_12345.csv".data) =
      ["a".data, "2024111".data, "12345".data]
    ∧ strictYmd "2024111".data = false
    ∧ strictHms "12345".data = false
    ∧ "a_2024111_12345.csv" ∈
        ((cleanup_old_files ["a_2024111_12345.csv"] 0 false).deleted.map Prod.fst) := by
  refine ⟨by decide, by decide, by decide, ?_⟩
  have hfm : (["a_2024111_12345.csv"].filterMap fun f => (parseStamp f).map fun t => (f, t)) =
      [("a_2024111_12345.csv", 72777962045)] := rfl
  have hg : get_timestamped_files ["a_2024111_12345.csv"] =
      [("a_2024111_12345.csv", 72777962045)] := by
    unfold get_timestamped_files
    rw [hfm]
    exact List.mergeSort_singleton _
  have hc : cleanup_old_files ["a_2024111_12345.csv"] 0 false =
      ⟨[], [("a_2024111_12345.csv", 72777962045)], (0, 1)⟩ := by
    unfold cleanup_old_files
    rw [hg]
    rfl
  rw [hc]
  simp

theorem mem_get_timestamped_files {files : List String} {pr : String × Nat}
    (h : pr ∈ get_timestamped_files files) : parseStamp pr.1 = some pr.2 := by
  rw [get_timestamped_files, List.mem_mergeSort, List.mem_filterMap] at h
  obtain ⟨g, _, hg⟩ := h
  rw [Option.map_eq_some'] at hg
  obtain ⟨t, ht, hpr⟩ := hg
  rw [← hpr]
  exact ht

theorem filterMap_stamp_filter_ne (files : List String) (f : String)
    (hf : parseStamp f = none) :
    ((files.filter fun g => decide (g ≠ f)).filterMap fun g => (parseStamp g).map fun t => (g, t)) =
      files.filterMap fun g => (parseStamp g).map fun t => (g, t) := by
  induction files with
  | nil => rfl
  | cons g rest ih =>
    by_cases hgf : g = f
    · rw [List.filter_cons, List.filterMap_cons]
      subst hgf
      rw [hf]
      simpa using ih
    · rw [List.filter_cons, List.filterMap_cons]
      rw [if_pos (by simpa using hgf)]
      rw [List.filterMap_cons]
      cases parseStamp g with
      | none => simpa using ih
      | some t => simp only [Option.map_some']; rw [ih]

/-- C7 (amended).  A file whose name fails the code's timestamp extraction
(stem with fewer than 3 underscore-separated segments, or last two segments
rejected by CPython's `strptime('%Y%m%d_%H%M%S')` — which also accepts
certain narrower-than-fixed-width digit fields) is excluded from the
retention pass entirely: it is never kept, never deleted, and the pass
returns exactly what it would return had the file not matched at all,
in live and dry-run mode alike. -/
theorem cleanup_excluded (files : List String) (K : Nat) (b : Bool) (f : String)
    (hf : parseStamp f = none) :
    f ∉ ((cleanup_old_files files K b).kept.map Prod.fst)
    ∧ f ∉ ((cleanup_old_files files K b).deleted.map Prod.fst)
    ∧ cleanup_old_files files K b =
        cleanup_old_files (files.filter fun g => decide (g ≠ f)) K b := by
  have hmemfts : ∀ pr ∈ get_timestamped_files files, pr.1 ≠ f := by
    intro pr hpr heq
    have h2 := mem_get_timestamped_files hpr
    rw [heq, hf] at h2
    cases h2
  have hnotin : ∀ l : List (String × Nat),
      l ⊆ get_timestamped_files files → f ∉ l.map Prod.fst := by
    intro l hsub hmem
    rw [List.mem_map] at hmem
    obtain ⟨pr, hpr, hfst⟩ := hmem
    exact hmemfts pr (hsub hpr) hfst
  have heq3 : cleanup_old_files files K b =
      cleanup_old_files (files.filter fun g => decide (g ≠ f)) K b := by
    unfold cleanup_old_files
    rw [show get_timestamped_files (files.filter fun g => decide (g ≠ f)) =
        get_timestamped_files files by
      unfold get_timestamped_files
      rw [filterMap_stamp_filter_ne files f hf]]
  by_cases hemp : (get_timestamped_files files).isEmpty
  · have h1 : cleanup_old_files files K b = ⟨[], [], (0, 0)⟩ := by
      unfold cleanup_old_files
      rw [if_pos hemp]
    rw [h1] at heq3 ⊢
    exact ⟨by simp, by simp, heq3⟩
  · have h1 : cleanup_old_files files K b =
        ⟨(get_timestamped_files files).take K,
          if b then [] else (get_timestamped_files files).drop K,
          (((get_timestamped_files files).take K).length,
           ((get_timestamped_files files).drop K).length)⟩ := by
      unfold cleanup_old_files
      rw [if_neg hemp]
    rw [h1] at heq3 ⊢
    refine ⟨hnotin _ (List.take_subset K _), ?_, heq3⟩
    cases b with
    | true => simp
    | false => exact hnotin _ (List.drop_subset K _)

theorem cleanup_excluded_witness :
    parseStamp "report_final.csv" = none
    ∧ ("report_final.csv" ∉
        (((cleanup_old_files ["report_final.csv", "a_20240101_120000.csv"] 1 false).kept).map Prod.fst)
      ∧ "report_final.csv" ∉
        (((cleanup_old_files ["report_final.csv", "a_20240101_120000.csv"] 1 false).deleted).map Prod.fst)
      ∧ cleanup_old_files ["report_final.csv", "a_20240101_120000.csv"] 1 false =
          cleanup_old_files
            ((["report_final.csv", "a_20240101_120000.csv"]).filter
              fun g => decide (g ≠ "report_final.csv")) 1 false) :=
  ⟨rfl, cleanup_excluded ["report_final.csv", "a_20240101_120000.csv"] 1 false
    "report_final.csv" rfl⟩

/-! ## Identifier sort key (`int(x.get('Id', 0) or 0)`) -/

/-- ASCII whitespace as Python's `str.strip()` removes it (space, tab,
newline, carriage return, vertical tab, form feed; `strip` nominally also
removes other Unicode whitespace, which does not occur in these fields). -/
def isPySpace (c : Char) : Bool :=
  c = ' ' || c = '\t' || c = '\n' || c = '\r' || c.toNat = 11 || c.toNat = 12

/-- Python `str.strip()`: drop leading and trailing whitespace. -/
def pyStripChars (s : List Char) : List Char :=
  ((s.dropWhile isPySpace).reverse.dropWhile isPySpace).reverse

/-- Digit run of a Python integer literal after the first digit: single
underscores are allowed between digits, nowhere else. -/
def digsU : List Char → Nat → Option Nat
  | [], acc => some acc
  | '_' :: c :: r, acc => if c.isDigit then digsU r (acc * 10 + digitVal c) else none
  | ['_'], _ => none
  | c :: r, acc => if c.isDigit then digsU r (acc * 10 + digitVal c) else none

/-- Python `int(s)` for a string: strip whitespace, optional single sign,
then a non-empty digit run with optional underscore grouping; anything else
raises `ValueError`, here `none` (ASCII digits; `int` nominally also
accepts other Unicode decimal digits). -/
def pyIntOfStr (s : String) : Option Int :=
  match pyStripChars s.data with
  | [] => none
  | '-' :: c :: r =>
      if c.isDigit then (digsU r (digitVal c)).map (fun n => -(n : Int)) else none
  | '+' :: c :: r =>
      if c.isDigit then (digsU r (digitVal c)).map (fun n => (n : Int)) else none
  | c :: r =>
      if c.isDigit then (digsU r (digitVal c)).map (fun n => (n : Int)) else none

/-- `int(x.get('Id', 0) or 0)` (`tophat_api_monitor.py` line 887): an absent
key defaults to `0`; a falsy value (`None`, `''`, `0`) is replaced by `0`;
an int passes through; a non-empty string goes through `int(...)`, which
may raise (`none`). -/
def pyIntOfGet : Option PyVal → Option Int
  | none => some 0
  | some .vNone => some 0
  | some (.vStr "") => some 0
  | some (.vStr s) => pyIntOfStr s
  | some (.vInt n) => some n

/-- The integer sort key of a record (total function; the `run` model only
uses it when every record's key is defined). -/
def intIdKey (r : Record) : Int := (pyIntOfGet r.Id).getD 0

/-- `all_records.sort(key=lambda x: int(x.get('Id', 0) or 0), reverse=True)`
(`tophat_api_monitor.py` line 887): a stable descending sort on the integer
key, as is `mergeSort` with this `le`. -/
def pySortDesc (records : List Record) : List Record :=
  records.mergeSort (fun a b => decide (intIdKey b ≤ intIdKey a))

/-- C9.  For a non-empty fetch result whose identifiers all coerce to int,
the list the orchestrator sorts before `identify_new_records` and the
snapshot writers is a permutation of the fetch result in which every
record's identifier is ≥ that of every later record. -/
theorem run_sort_desc (records : List Record) (hne : records ≠ [])
    (hkeys : ∀ r ∈ records, (pyIntOfGet r.Id).isSome) :
    (pySortDesc records).Perm records
    ∧ (pySortDesc records).Pairwise (fun a b => intIdKey b ≤ intIdKey a) := by
  constructor
  · exact List.mergeSort_perm records _
  · have h : (pySortDesc records).Pairwise
        (fun a b => decide (intIdKey b ≤ intIdKey a) = true) :=
      List.sorted_mergeSort
        (by intro a b c hab hbc
            simp only [decide_eq_true_eq] at *
            omega)
        (by intro a b
            simp only [Bool.or_eq_true, decide_eq_true_eq]
            exact Int.le_total _ _)
        records
    exact h.imp fun hab => of_decide_eq_true hab

def sortRecs0 : List Record := [{ Id := some (.vInt 3) }, { Id := some (.vStr "7") }]

theorem run_sort_desc_witness :
    (sortRecs0 ≠ [] ∧ ∀ r ∈ sortRecs0, (pyIntOfGet r.Id).isSome) ∧
    ((pySortDesc sortRecs0).Perm sortRecs0 ∧
      (pySortDesc sortRecs0).Pairwise fun a b => intIdKey b ≤ intIdKey a) :=
  ⟨⟨by decide, by decide⟩, run_sort_desc sortRecs0 (by decide) (by decide)⟩

/-! ## Orchestrator (`TopHatAPIMonitor.run` and its auto-cleanup) -/

/-- Glob match for the monitor's fixed patterns `<prefix>*<suffix>`:
the name starts with the literal prefix, ends with the literal suffix, and
the two do not overlap (`*` matches any, possibly empty, run of characters). -/
def matchesPat (pre suf name : String) : Bool :=
  pre.data.isPrefixOf name.data && suf.data.isSuffixOf name.data &&
    decide (pre.length + suf.length ≤ name.length)

/-- The four fixed cleanup pattern categories
(`tophat_api_monitor.py` lines 293-298), split as prefix/suffix around `*`. -/
def monitorPatterns : List (String × String) :=
  [("fetched_records_", ".csv"), ("fetched_records_", ".json"),
   ("new_records_", ".csv"), ("new_records_", ".json")]

/-- One pattern pass of the monitor's `cleanup_old_files`
(`tophat_api_monitor.py` lines 302-334): the per-file timestamp extraction
and newest-first sort are the same code as `FileCleanup.get_timestamped_files`
(shared here), and every file beyond the first `keep_files` is unlinked
(deletion modelled error-free).  The result is the directory content after
the pass. -/
def deleteForPattern (keep_files : Nat) (pre suf : String) (outputs : List String) :
    List String :=
  let files_with_timestamps := get_timestamped_files (outputs.filter (matchesPat pre suf))
  let files_to_delete := (files_with_timestamps.drop keep_files).map Prod.fst
  outputs.filter fun n => decide (n ∉ files_to_delete)

/-- `TopHatAPIMonitor.cleanup_old_files` (`tophat_api_monitor.py` lines
285-342): disabled for `keep_files <= 0`, otherwise the four pattern passes
run in order over the output directory. -/
def monitor_cleanup_old_files (keep_files : Int) (outputs : List String) : List String :=
  if keep_files ≤ 0 then outputs
  else monitorPatterns.foldl
    (fun acc p => deleteForPattern keep_files.toNat p.1 p.2 acc) outputs

/-- The run-state JSON blob `{last_run, records_fetched, new_records_found}`. -/
structure RunState where
  last_run : String
  records_fetched : Nat
  new_records_found : Nat
deriving DecidableEq, Repr

/-- The persistent state `run` touches: the baseline file, the state file,
and the names in the output directory. -/
structure MonitorFS where
  baseline : Option CsvFile
  state : Option RunState
  outputs : List String
deriving Repr

/-- `TopHatAPIMonitor.run` (`tophat_api_monitor.py` lines 863-949) as a
transformer of the persistent state, with the fetch result and run start
timestamp supplied as parameters (the fetcher's network side is modelled
separately by `fetch_all_records`).  On a non-empty fetch the records are
sorted descending by integer identifier — `int(...)` raising on an
uncoercible identifier aborts the run before any write, modelled as `none` —
then the new records are identified, the timestamped snapshot files are
written (the `new_records` pair only when there are new records), the
baseline is overwritten with the sorted full set, the state is rewritten,
and the auto-cleanup runs.  On an empty fetch everything but the
auto-cleanup is skipped. -/
def run (fs : MonitorFS) (all_records : List Record) (timestamp : String)
    (keep_files : Int) : Option MonitorFS :=
  let baseline_ids := load_baseline fs.baseline
  if all_records.isEmpty then
    some { fs with outputs := monitor_cleanup_old_files keep_files fs.outputs }
  else if all_records.all (fun r => (pyIntOfGet r.Id).isSome) then
    let sorted := pySortDesc all_records
    let new_records := identify_new_records sorted baseline_ids
    let new_files := if new_records.isEmpty then []
      else ["new_records_" ++ timestamp ++ ".csv", "new_records_" ++ timestamp ++ ".json"]
    let outputs := fs.outputs ++
      ["fetched_records_" ++ timestamp ++ ".csv", "fetched_records_" ++ timestamp ++ ".json"]
      ++ new_files
    some { baseline := save_baseline fs.baseline sorted,
           state := some ⟨timestamp, all_records.length, new_records.length⟩,
           outputs := monitor_cleanup_old_files keep_files outputs }
  else none

theorem deleteForPattern_sublist (k : Nat) (pre suf : String) (outputs : List String) :
    (deleteForPattern k pre suf outputs).Sublist outputs :=
  List.filter_sublist outputs

theorem monitor_cleanup_sublist (keep_files : Int) (outputs : List String) :
    (monitor_cleanup_old_files keep_files outputs).Sublist outputs := by
  unfold monitor_cleanup_old_files
  split
  · exact List.Sublist.refl _
  · have h : ∀ (pats : List (String × String)) (outs : List String),
        (pats.foldl (fun acc p => deleteForPattern keep_files.toNat p.1 p.2 acc) outs).Sublist
          outs := by
      intro pats
      induction pats with
      | nil => intro outs; exact List.Sublist.refl _
      | cons p ps ih =>
        intro outs
        exact (ih _).trans (deleteForPattern_sublist _ _ _ outs)
    exact h monitorPatterns outputs

/-- C8.  On a zero-record fetch, `run` skips every persistence, email and
state step: it succeeds, the baseline file and the state file are exactly
what they were, and no file is added to the output directory (the
auto-cleanup still runs and can only remove files). -/
theorem run_empty_fetch_frame (fs : MonitorFS) (timestamp : String) (keep_files : Int) :
    ∃ fs', run fs [] timestamp keep_files = some fs'
      ∧ fs'.baseline = fs.baseline
      ∧ fs'.state = fs.state
      ∧ fs'.outputs.Sublist fs.outputs :=
  ⟨_, rfl, rfl, rfl, monitor_cleanup_sublist keep_files fs.outputs⟩

/-! ## EIN address lookup -/

/-- The sponsor address attached to an EIN, as built by
`_load_reference_data`. -/
structure AddressInfo where
  name : String
  address1 : String
  address2 : String
  city : String
  state : String
  zip : String
deriving DecidableEq, Repr

/-- The code's EIN key normalization, `str(ein).strip().replace('-', '')`
(`tophat_api_monitor.py` line 125): trim surrounding whitespace, then remove
every hyphen.  No other character is touched. -/
def einClean (ein : String) : String :=
  ⟨(pyStripChars ein.data).filter fun c => decide (c ≠ '-')⟩

/-- The spec's reading of the normalization: strip every non-alphanumeric
character before lookup. -/
def specNormalizeEin (ein : String) : String :=
  ⟨ein.data.filter Char.isAlphanum⟩

/-- `get_address_for_ein(ein)` (`tophat_api_monitor.py` lines 120-127):
`None` for a falsy (empty) EIN, otherwise a dict lookup (here an
association-list lookup) under the normalized key. -/
def get_address_for_ein (ein_to_address : List (String × AddressInfo)) (ein : String) :
    Option AddressInfo :=
  if ein = "" then none
  else (ein_to_address.find? fun p => decide (p.1 = einClean ein)).map Prod.snd

def addr0 : AddressInfo := ⟨"ACME", "1 MAIN ST", "", "SPRINGFIELD", "IL", "62704"⟩

def einIndex0 : List (String × AddressInfo) := [("123456789", addr0)]

/-- Counterexample to C10 as stated: the code strips only hyphens (and
surrounding whitespace), not every non-alphanumeric separator, so
`"12.3456789"` — which the claimed normalization maps to the same key as
`"123456789"` — misses an index entry that `"123456789"` hits. -/
theorem ein_normalize_cex :
    specNormalizeEin "12.3456789" = specNormalizeEin "123456789"
    ∧ get_address_for_ein einIndex0 "123456789" = some addr0
    ∧ get_address_for_ein einIndex0 "12.3456789" = none :=
  ⟨by decide, by decide, by decide⟩

/-- C10 (amended).  `get_address_for_ein` looks every non-empty EIN up under
the key obtained by trimming surrounding whitespace and removing `'-'`
characters: two non-empty EIN strings with the same such key (in particular
`"12-3456789"` and `"123456789"`) always return the same result. -/
theorem ein_lookup_norm (idx : List (String × AddressInfo)) (e1 e2 : String)
    (h1 : e1 ≠ "") (h2 : e2 ≠ "") (h : einClean e1 = einClean e2) :
    get_address_for_ein idx e1 = get_address_for_ein idx e2 := by
  unfold get_address_for_ein
  rw [if_neg h1, if_neg h2, h]

theorem ein_lookup_norm_witness :
    ("12-3456789" ≠ "" ∧ "123456789" ≠ ""
      ∧ einClean "12-3456789" = einClean "123456789")
    ∧ get_address_for_ein einIndex0 "12-3456789" =
        get_address_for_ein einIndex0 "123456789" :=
  ⟨⟨by decide, by decide, by decide⟩,
    ein_lookup_norm einIndex0 "12-3456789" "123456789" (by decide) (by decide) (by decide)⟩
